import Mathlib

set_option maxRecDepth 10000
set_option maxHeartbeats 1000000

/-!
Verification of the task-to-structured-plan conversion protocol implemented by
this repository.  The development shallowly embeds the two source variants of
the planner:

* `ProjectPlanning.write_todos` models
  `project/deep_cognitive_agent/tools/planning/write_todos.py` (strict
  json-array mode), including its prompt template, Markdown fence stripping,
  strict JSON decoding, the list-of-strings shape check, and the two
  `ValueError` messages it raises.
* `EnginePlanning.write_todos` models
  `autonomous-cognitive-engine/deep_cognitive_agent/tools/planning.py`
  (the looser variant), which forwards the model response unchanged.

Strings are embedded as `List Char`.  The model-invocation capability is a
parameter `invoke : List Char → Except e (List Char)`: an `Except.error`
models a transport or provider exception escaping `llm.invoke`, and an
`Except.ok` models the text content of the response.  `jsonLoads` models the
behaviour of `json.loads` on text input: a recursive-descent parser over the
JSON grammar (with the CPython extras `NaN`, `Infinity`, `-Infinity`),
returning the decoded value or a decode-error message.
-/

namespace PlanSpec

/- Delimiter characters are introduced by code point: backquote, double
quote, backslash, single quote, and the two curly brackets. -/

def bq : Char := Char.ofNat 96

def dq : Char := Char.ofNat 34

def bs : Char := Char.ofNat 92

def sq : Char := Char.ofNat 39

def lcb : Char := Char.ofNat 123

def rcb : Char := Char.ofNat 125

def nl : Char := Char.ofNat 10

/-- Whitespace recognised by the Python `str.strip()` method (ASCII range). -/
def isPyWs (c : Char) : Bool :=
  c == ' ' || c == '\t' || c == '\n' || c == '\r' || c == Char.ofNat 11 || c == Char.ofNat 12

/-- Left part of Python `str.strip()`. -/
def pyStripLeft (l : List Char) : List Char := l.dropWhile isPyWs

/-- Right part of Python `str.strip()`. -/
def pyStripRight (l : List Char) : List Char := (l.reverse.dropWhile isPyWs).reverse

/-- Python `str.strip()`: remove leading and trailing whitespace. -/
def pyStrip (l : List Char) : List Char := pyStripRight (pyStripLeft l)

/-- The Markdown fence marker, a run of three backquotes. -/
def fence : List Char := [bq, bq, bq]

/-- Source lines 69-71: if the cleaned text starts with a fence marker, drop
the whole first line when the text contains a newline (Python
`cleaned.split("\n", 1)[1]`), otherwise drop just the three marker
characters (Python `cleaned[3:]`). -/
def stripOpeningFence (cleaned : List Char) : List Char :=
  if fence.isPrefixOf cleaned then
    if cleaned.contains nl then (cleaned.dropWhile (fun c => c != nl)).drop 1
    else cleaned.drop 3
  else cleaned

/-- Source lines 72-73: if the text ends with a fence marker, drop the final
three characters (Python `cleaned[:-3]`). -/
def stripClosingFence (cleaned : List Char) : List Char :=
  if fence.isSuffixOf cleaned then cleaned.take (cleaned.length - 3) else cleaned

/-- Source lines 68-74: strip, remove an opening fence, remove a closing
fence, strip again. -/
def cleanResponse (response_text : List Char) : List Char :=
  pyStrip (stripClosingFence (stripOpeningFence (pyStrip response_text)))

/-- Python values produced by `json.loads`. -/
inductive PyVal where
  | str (s : List Char)
  | num (lexeme : List Char)
  | boolean (b : Bool)
  | null
  | list (xs : List PyVal)
  | dict (entries : List (List Char × PyVal))

/-- Whitespace skipped by the JSON grammar. -/
def isJsonWs (c : Char) : Bool := c == ' ' || c == '\t' || c == '\n' || c == '\r'

def skipWs (l : List Char) : List Char := l.dropWhile isJsonWs

def msgExpectingValue : List Char := "Expecting value".toList

def msgUnterminated : List Char := "Unterminated string".toList

def msgInvalidEscape : List Char := "Invalid escape".toList

def msgInvalidControl : List Char := "Invalid control character".toList

def msgExpectingDelim : List Char := "Expecting delimiter".toList

def msgExpectingKey : List Char := "Expecting property name enclosed in double quotes".toList

def msgExpectingColon : List Char := "Expecting colon delimiter".toList

def msgExtraData : List Char := "Extra data".toList

def msgDepth : List Char := "Recursion limit exceeded".toList

def hexDigitVal (c : Char) : Option Nat :=
  if 48 ≤ c.toNat ∧ c.toNat ≤ 57 then some (c.toNat - 48)
  else if 97 ≤ c.toNat ∧ c.toNat ≤ 102 then some (c.toNat - 87)
  else if 65 ≤ c.toNat ∧ c.toNat ≤ 70 then some (c.toNat - 55)
  else none

/-- The single-character JSON string escapes. -/
def escChar (c : Char) : Option Char :=
  if c == dq then some dq
  else if c == bs then some bs
  else if c == '/' then some '/'
  else if c == 'b' then some (Char.ofNat 8)
  else if c == 'f' then some (Char.ofNat 12)
  else if c == 'n' then some nl
  else if c == 'r' then some (Char.ofNat 13)
  else if c == 't' then some '\t'
  else none

/-- Parse the body of a JSON string after the opening quote; return the
decoded content and the input remaining after the closing quote. -/
def parseStringBody : List Char → Except (List Char) (List Char × List Char)
  | [] => .error msgUnterminated
  | c :: rest =>
    if c == dq then .ok ([], rest)
    else if c == bs then
      match rest with
      | [] => .error msgUnterminated
      | e :: rest2 =>
        if e == 'u' then
          match rest2 with
          | h1 :: h2 :: h3 :: h4 :: rest6 =>
            match hexDigitVal h1, hexDigitVal h2, hexDigitVal h3, hexDigitVal h4 with
            | some a, some b, some c2, some d =>
              match parseStringBody rest6 with
              | .ok (s, r) => .ok (Char.ofNat (a * 4096 + b * 256 + c2 * 16 + d) :: s, r)
              | .error e2 => .error e2
            | _, _, _, _ => .error msgInvalidEscape
          | _ => .error msgInvalidEscape
        else
          match escChar e with
          | some ec =>
            match parseStringBody rest2 with
            | .ok (s, r) => .ok (ec :: s, r)
            | .error e2 => .error e2
          | none => .error msgInvalidEscape
    else if c.toNat < 32 then .error msgInvalidControl
    else
      match parseStringBody rest with
      | .ok (s, r) => .ok (c :: s, r)
      | .error e2 => .error e2

/-- Integer part of a JSON number: `0`, or a nonzero digit followed by
digits (the CPython lexer stops after a leading `0`). -/
def parseIntPart : List Char → Except (List Char) (List Char × List Char)
  | [] => .error msgExpectingValue
  | c :: rest =>
    if c == '0' then .ok ([c], rest)
    else if c.isDigit then
      let p := rest.span Char.isDigit
      .ok (c :: p.1, p.2)
    else .error msgExpectingValue

/-- Optional fractional part: a dot followed by at least one digit;
otherwise the lexeme is empty and the input is left untouched. -/
def parseFracPart (l : List Char) : List Char × List Char :=
  match l with
  | c :: rest =>
    if c == '.' then
      match rest with
      | d :: _ =>
        if d.isDigit then
          let p := rest.span Char.isDigit
          (c :: p.1, p.2)
        else ([], l)
      | [] => ([], l)
    else ([], l)
  | [] => ([], l)

/-- Optional exponent part: `e` or `E`, an optional sign, at least one
digit; otherwise the lexeme is empty and the input is left untouched. -/
def parseExpPart (l : List Char) : List Char × List Char :=
  match l with
  | c :: rest =>
    if c == 'e' || c == 'E' then
      match rest with
      | s :: rest2 =>
        if s == '+' || s == '-' then
          match rest2 with
          | d :: _ =>
            if d.isDigit then
              let p := rest2.span Char.isDigit
              (c :: s :: p.1, p.2)
            else ([], l)
          | [] => ([], l)
        else if s.isDigit then
          let p := rest.span Char.isDigit
          (c :: p.1, p.2)
        else ([], l)
      | [] => ([], l)
    else ([], l)
  | [] => ([], l)

/-- Lex a JSON number, returning its lexeme and the rest of the input. -/
def parseNumber (l : List Char) : Except (List Char) (List Char × List Char) :=
  match l with
  | [] => .error msgExpectingValue
  | c :: rest =>
    if c == '-' then
      match parseIntPart rest with
      | .ok (ip, r1) =>
        let f := parseFracPart r1
        let ex := parseExpPart f.2
        .ok (c :: (ip ++ f.1 ++ ex.1), ex.2)
      | .error e => .error e
    else
      match parseIntPart l with
      | .ok (ip, r1) =>
        let f := parseFracPart r1
        let ex := parseExpPart f.2
        .ok (ip ++ f.1 ++ ex.1, ex.2)
      | .error e => .error e

/-- Match a literal word at the head of the input. -/
def matchLit (lit l : List Char) : Option (List Char) :=
  if lit.isPrefixOf l then some (l.drop lit.length) else none

/-- Parsing mode: a single value, the items of an array after the opening
bracket, or the entries of an object after the opening brace. -/
inductive JMode where
  | value
  | arrItems (acc : List PyVal) (first : Bool)
  | objItems (acc : List (List Char × PyVal)) (first : Bool)

/-- Recursive-descent JSON parser, fuel-bounded so that the recursion is
structural on the first argument. -/
def parseJson : Nat → JMode → List Char → Except (List Char) (PyVal × List Char)
  | 0, _, _ => .error msgDepth
  | Nat.succ fuel, JMode.value, l =>
    match skipWs l with
    | [] => .error msgExpectingValue
    | c :: rest =>
      if c == dq then
        match parseStringBody rest with
        | .ok (s, r) => .ok (.str s, r)
        | .error e => .error e
      else if c == '[' then parseJson fuel (.arrItems [] true) rest
      else if c == lcb then parseJson fuel (.objItems [] true) rest
      else
        match matchLit "true".toList (c :: rest) with
        | some r => .ok (.boolean true, r)
        | none =>
        match matchLit "false".toList (c :: rest) with
        | some r => .ok (.boolean false, r)
        | none =>
        match matchLit "null".toList (c :: rest) with
        | some r => .ok (.null, r)
        | none =>
        match matchLit "NaN".toList (c :: rest) with
        | some r => .ok (.num "NaN".toList, r)
        | none =>
        match matchLit "Infinity".toList (c :: rest) with
        | some r => .ok (.num "Infinity".toList, r)
        | none =>
        match matchLit "-Infinity".toList (c :: rest) with
        | some r => .ok (.num "-Infinity".toList, r)
        | none =>
          match parseNumber (c :: rest) with
          | .ok (lex, r) => .ok (.num lex, r)
          | .error e => .error e
  | Nat.succ fuel, JMode.arrItems acc first, l =>
    match skipWs l with
    | [] => .error msgExpectingValue
    | c :: rest =>
      if first && c == ']' then .ok (.list acc.reverse, rest)
      else
        match parseJson fuel JMode.value (c :: rest) with
        | .error e => .error e
        | .ok (v, r) =>
          match skipWs r with
          | ',' :: r2 => parseJson fuel (.arrItems (v :: acc) false) r2
          | ']' :: r2 => .ok (.list (v :: acc).reverse, r2)
          | _ => .error msgExpectingDelim
  | Nat.succ fuel, JMode.objItems acc first, l =>
    match skipWs l with
    | [] => .error msgExpectingValue
    | c :: rest =>
      if first && c == rcb then .ok (.dict acc.reverse, rest)
      else if c == dq then
        match parseStringBody rest with
        | .error e => .error e
        | .ok (k, r) =>
          match skipWs r with
          | ':' :: r2 =>
            match parseJson fuel JMode.value r2 with
            | .error e => .error e
            | .ok (v, r3) =>
              match skipWs r3 with
              | ',' :: r4 => parseJson fuel (.objItems ((k, v) :: acc) false) r4
              | cc :: r4 =>
                if cc == rcb then .ok (.dict ((k, v) :: acc).reverse, r4)
                else .error msgExpectingDelim
              | [] => .error msgExpectingDelim
          | _ => .error msgExpectingColon
      else .error msgExpectingKey

/-- Model of Python `json.loads` on text input: parse one value, then require
that only whitespace remains. -/
def jsonLoads (l : List Char) : Except (List Char) PyVal :=
  match parseJson (2 * l.length + 8) JMode.value l with
  | .error e => .error e
  | .ok (v, rest) =>
    match skipWs rest with
    | [] => .ok v
    | _ => .error msgExtraData

/-- Python `isinstance(v, str)`. -/
def PyVal.isStr : PyVal → Bool
  | .str _ => true
  | _ => false

/-- Source line 85: `isinstance(steps, list) and all(isinstance(s, str) for s in steps)`. -/
def isListOfStrings : PyVal → Bool
  | .list xs => xs.all PyVal.isStr
  | _ => false

/-- The elements of a decoded JSON array. -/
def pyListElems : PyVal → List PyVal
  | .list xs => xs
  | _ => []

/-- The text of a decoded JSON string. -/
def strContent : PyVal → List Char
  | .str s => s
  | _ => []

/-- Render a Python class name the way `repr(type(v))` does. -/
def classOf (n : List Char) : List Char :=
  "<class ".toList ++ sq :: n ++ sq :: ">".toList

/-- A number lexeme that CPython decodes to `float` rather than `int`. -/
def isFloatLexeme (lex : List Char) : Bool :=
  lex.contains '.' || lex.contains 'e' || lex.contains 'E' ||
    lex.contains 'n' || lex.contains 'N'

/-- Python `type(v)` as rendered inside an f-string. -/
def pyTypeName : PyVal → List Char
  | .str _ => classOf "str".toList
  | .num lex => if isFloatLexeme lex then classOf "float".toList else classOf "int".toList
  | .boolean _ => classOf "bool".toList
  | .null => classOf "NoneType".toList
  | .list _ => classOf "list".toList
  | .dict _ => classOf "dict".toList

/-- One decomposed step: the dict literal built on source line 91. -/
structure TodoItem where
  task : List Char
  status : List Char
deriving DecidableEq

/-- The returned value of `write_todos`: the dict built on source line 93. -/
structure PlanDict where
  todos : List TodoItem
deriving DecidableEq

/-- Source line 91 sets every generated status to the literal `pending`. -/
def pendingStatus : List Char := "pending".toList

/-- An error escaping `write_todos`: either a provider failure propagated from
`llm.invoke`, or a `ValueError` raised by `write_todos` itself; the
`ValueError` is identified by its message text. -/
inductive PyError (e : Type) where
  | providerError (err : e)
  | valueError (msg : List Char)
deriving DecidableEq

/-- Source lines 80-83: the `ValueError` message raised when `json.loads`
fails, carrying the raw response text and the decode error. -/
def jsonDecodeFailMsg (response_text err : List Char) : List Char :=
  "LLM did not return valid JSON. Raw response:\n".toList ++ response_text ++
    "\n\nJSON error: ".toList ++ err

/-- Source lines 86-88: the `ValueError` message raised when the decoded
value is not a list of strings, carrying only the type of the value. -/
def notListOfStringsMsg (steps : PyVal) : List Char :=
  "LLM returned JSON but not a list of strings. Got: ".toList ++ pyTypeName steps

namespace ProjectPlanning

/-- The fixed text of `planning_prompt` up to its placeholder
(source lines 28-43); `PromptTemplate.format` appends the task after it. -/
def planning_prompt_head : List Char :=
  ("You are a planning agent.\n\nBreak the following complex task into 4 to 6 logically ordered, clear, non-repeating, actionable steps.\n\nSTRICT OUTPUT RULES:\n- Return ONLY valid JSON.\n- Do NOT include markdown, code fences, or explanations.\n- The output MUST be a JSON array of strings.\n\nExample output:\n[\"Research the topic\", \"Identify key components\", \"Draft an outline\", \"Review and refine\"]\n\nTask: ").toList

/-- Source line 61: `planning_prompt.format(task=task)`. -/
def formatted_prompt (task : List Char) : List Char :=
  planning_prompt_head ++ task

/-- Source lines 64-93 after the model call: fence cleaning, strict JSON
decoding, the list-of-strings check, and construction of the todo dicts. -/
def parse_model_response (response_text : List Char) : Except (List Char) PlanDict :=
  match jsonLoads (cleanResponse response_text) with
  | .error e => .error (jsonDecodeFailMsg response_text e)
  | .ok steps =>
    if isListOfStrings steps then
      .ok ⟨(pyListElems steps).map fun step => ⟨strContent step, pendingStatus⟩⟩
    else .error (notListOfStringsMsg steps)

/-- Model of `write_todos` from
`project/deep_cognitive_agent/tools/planning/write_todos.py`, parameterised
by the model-invocation capability. -/
def write_todos {e : Type} (invoke : List Char → Except e (List Char)) (task : List Char) :
    Except (PyError e) PlanDict :=
  match invoke (formatted_prompt task) with
  | .error err => .error (.providerError err)
  | .ok response_text =>
    match parse_model_response response_text with
    | .error msg => .error (.valueError msg)
    | .ok result => .ok result

end ProjectPlanning

namespace EnginePlanning

/-- The f-string prompt of the looser variant
(`autonomous-cognitive-engine/deep_cognitive_agent/tools/planning.py`,
lines 9-14). -/
def prompt_text (goal : List Char) : List Char :=
  "\n    You are an intelligent planning agent.\n    Break the following goal into clear step-by-step TODOs.\n\n    Goal: ".toList ++
    goal ++ "\n    ".toList

/-- Model of `write_todos` from
`autonomous-cognitive-engine/deep_cognitive_agent/tools/planning.py`
(lines 6-17): invoke the model and return `response.content` unchanged. -/
def write_todos {e : Type} (invoke : List Char → Except e (List Char)) (goal : List Char) :
    Except e (List Char) :=
  invoke (prompt_text goal)

end EnginePlanning

/-- A leading ordinal or bullet marker character in the sense of the spec:
digits, closing parenthesis or period, hyphen, whitespace. -/
def isMarkerChar (c : Char) : Bool :=
  c.isDigit || c == ')' || c == '.' || c == '-' || isPyWs c

/-- Modelled from the spec: the numbered-text parsing mode described in
section 4.1 (split the normalized text into non-empty lines, strip any
leading ordinal or bullet marker from each line, discard lines that become
empty, and turn each remaining line into a pending TodoItem).  No file under
the sources implements this parse; the definition follows the words of the
spec and exists only to be compared with the source-side behaviour. -/
def specNumberedTodos (text : List Char) : List TodoItem :=
  (((((pyStrip text).splitOn nl).filter fun line => !line.isEmpty).map
      fun line => line.dropWhile isMarkerChar).filter fun line => !line.isEmpty).map
    fun line => ⟨line, pendingStatus⟩

/-- A response wrapped in a fenced code block: an opening fence marker with a
language tag on the opening line, the payload, and a closing fence marker. -/
def fenceWrap (lang A : List Char) : List Char :=
  fence ++ (lang ++ [nl] ++ A ++ [nl]) ++ fence

/-! Concrete inputs used by the witnesses and counterexamples below. -/

def demoTask : List Char := "Build an AI chatbot architecture".toList

def demoResponse : List Char :=
  "[\"Define scope\", \"Select framework\", \"Design conversation flow\", \"Implement and test\"]".toList

def demoStrings : List (List Char) :=
  ["Define scope".toList, "Select framework".toList,
    "Design conversation flow".toList, "Implement and test".toList]

def notJsonResponse : List Char := "not json at all".toList

def numericArrayResponse : List Char := "[1, 2]".toList

def numericArrayValue : PyVal := PyVal.list [PyVal.num ['1'], PyVal.num ['2']]

def emptyStringArrayResponse : List Char := [ '[', dq, dq, ']' ]

def singletonArrayResponse : List Char := [ '[', dq, 'A', dq, ']' ]

def tripResponse : List Char := "[\"Book flight\",\"Book hotel\"]".toList

def tripStrings : List (List Char) := ["Book flight".toList, "Book hotel".toList]

def numberedTextResponse : List Char := "1. Research X\n2) Draft Y\n- Review Z".toList

/-! ### Helper lemmas about the Python string operations -/

theorem pyStrip_eq (l : List Char) :
    pyStrip l = (l.dropWhile isPyWs).rdropWhile isPyWs := rfl

theorem dropWhile_head_false {p : Char → Bool} {c : Char} {t : List Char}
    (h : (c :: t).dropWhile p = c :: t) : p c = false := by
  have := List.dropWhile_eq_self_iff.mp h (by simp)
  simpa using this

theorem dropWhile_rdropWhile_self {p : Char → Bool} {X : List Char}
    (h : X.dropWhile p = X) : (X.rdropWhile p).dropWhile p = X.rdropWhile p := by
  rcases hX : X.rdropWhile p with _ | ⟨c, t⟩
  · rfl
  · have hpre : X.rdropWhile p <+: X := List.rdropWhile_prefix p X
    rw [hX] at hpre
    obtain ⟨s, hs⟩ := hpre
    rw [← hs] at h
    have h2 : (c :: (t ++ s)).dropWhile p = c :: (t ++ s) := by simpa using h
    have hc : p c = false := dropWhile_head_false h2
    rw [List.dropWhile_cons_of_neg (by simp [hc])]

theorem pyStrip_idem (l : List Char) : pyStrip (pyStrip l) = pyStrip l := by
  rw [pyStrip_eq, pyStrip_eq]
  rw [dropWhile_rdropWhile_self (List.dropWhile_idempotent isPyWs l),
    List.rdropWhile_idempotent]

theorem pyStrip_concat_ws {c : Char} (hc : isPyWs c = true) (l : List Char) :
    pyStrip (l ++ [c]) = pyStrip l := by
  rw [pyStrip_eq, pyStrip_eq, List.dropWhile_append]
  by_cases h : (l.dropWhile isPyWs).isEmpty
  · rw [if_pos h]
    have h1 : ([c].dropWhile isPyWs) = [] := by simp [List.dropWhile_cons, hc]
    rw [h1]
    rw [List.isEmpty_iff] at h
    rw [h]
  · rw [if_neg h, List.rdropWhile_concat_pos _ _ _ hc]

theorem pyStripLeft_fence (X : List Char) : pyStripLeft (fence ++ X) = fence ++ X := by
  show (fence ++ X).dropWhile isPyWs = fence ++ X
  rw [show fence ++ X = bq :: (bq :: bq :: X) by simp [fence]]
  rw [List.dropWhile_cons_of_neg (by decide)]

theorem pyStripRight_fence (X : List Char) : pyStripRight (X ++ fence) = X ++ fence := by
  show (X ++ fence).rdropWhile isPyWs = X ++ fence
  rw [show X ++ fence = (X ++ [bq, bq]) ++ [bq] by simp [fence]]
  rw [List.rdropWhile_concat_neg _ _ _ (by decide)]

theorem pyStrip_fenceWrap (lang A : List Char) :
    pyStrip (fenceWrap lang A) = fenceWrap lang A := by
  show pyStripRight (pyStripLeft (fenceWrap lang A)) = fenceWrap lang A
  have h1 : pyStripLeft (fenceWrap lang A) = fenceWrap lang A := by
    rw [show fenceWrap lang A = fence ++ ((lang ++ [nl] ++ A ++ [nl]) ++ fence) by
      simp [fenceWrap]]
    exact pyStripLeft_fence _
  rw [h1]
  exact pyStripRight_fence _

theorem fence_isPrefixOf_fenceWrap (lang A : List Char) :
    fence.isPrefixOf (fenceWrap lang A) = true := by
  rw [List.isPrefixOf_iff_prefix, show fenceWrap lang A =
    fence ++ ((lang ++ [nl] ++ A ++ [nl]) ++ fence) by simp [fenceWrap]]
  exact List.prefix_append _ _

theorem fenceWrap_contains_nl (lang A : List Char) :
    (fenceWrap lang A).contains nl = true := by
  show List.elem nl (fenceWrap lang A) = true
  rw [List.elem_iff]
  simp [fenceWrap]

theorem stripOpeningFence_fenceWrap (lang A : List Char) (hlang : nl ∉ lang) :
    stripOpeningFence (fenceWrap lang A) = A ++ [nl] ++ fence := by
  simp only [stripOpeningFence, fence_isPrefixOf_fenceWrap, fenceWrap_contains_nl, if_true]
  rw [show fenceWrap lang A = (fence ++ lang) ++ (nl :: (A ++ [nl] ++ fence)) by
    simp [fenceWrap]]
  rw [List.dropWhile_append_of_pos ?hall]
  case hall =>
    intro a ha
    rcases List.mem_append.mp ha with hf | hl
    · fin_cases hf <;> decide
    · simp [bne_iff_ne]
      exact fun hEq => hlang (hEq ▸ hl)
  rw [List.dropWhile_cons_of_neg (by simp)]
  simp

theorem stripClosingFence_concat (X : List Char) :
    stripClosingFence (X ++ fence) = X := by
  have hsuf : fence.isSuffixOf (X ++ fence) = true := by
    rw [List.isSuffixOf_iff_suffix]
    exact List.suffix_append X fence
  simp only [stripClosingFence, hsuf, if_true]
  rw [show (X ++ fence).length - 3 = X.length by simp [fence]]
  exact List.take_left X fence

theorem cleanResponse_fenceWrap (lang A : List Char) (hlang : nl ∉ lang) :
    cleanResponse (fenceWrap lang A) = pyStrip A := by
  unfold cleanResponse
  rw [pyStrip_fenceWrap, stripOpeningFence_fenceWrap lang A hlang,
    stripClosingFence_concat]
  exact pyStrip_concat_ws (by decide) A

theorem cleanResponse_no_fence {r : List Char}
    (h1 : fence.isPrefixOf (pyStrip r) = false)
    (h2 : fence.isSuffixOf (pyStrip r) = false) :
    cleanResponse r = pyStrip r := by
  simp only [cleanResponse, stripOpeningFence, stripClosingFence, h1, h2,
    Bool.false_eq_true, if_false]
  exact pyStrip_idem r

theorem all_isStr_map_str (ss : List (List Char)) :
    isListOfStrings (PyVal.list (ss.map PyVal.str)) = true := by
  simp only [isListOfStrings, List.all_eq_true]
  intro s hs
  obtain ⟨a, _, rfl⟩ := List.mem_map.mp hs
  rfl

theorem parse_model_response_status {resp : List Char} {plan : PlanDict}
    (h : ProjectPlanning.parse_model_response resp = Except.ok plan) :
    ∀ item ∈ plan.todos, item.status = pendingStatus := by
  unfold ProjectPlanning.parse_model_response at h
  split at h
  · exact absurd h (by simp)
  · split at h
    · injection h with h
      subst h
      intro item hitem
      obtain ⟨step, _, rfl⟩ := List.mem_map.mp hitem
      rfl
    · exact absurd h (by simp)

theorem parse_model_response_of_strings {resp : List Char} {ss : List (List Char)}
    (hjson : jsonLoads (cleanResponse resp) = Except.ok (PyVal.list (ss.map PyVal.str))) :
    ProjectPlanning.parse_model_response resp =
      Except.ok ⟨ss.map fun s => ⟨s, pendingStatus⟩⟩ := by
  unfold ProjectPlanning.parse_model_response
  rw [hjson]
  simp [all_isStr_map_str, pyListElems, strContent, List.map_map, Function.comp]

/-! ### Claim theorems -/

/-- Claim C1: for every goal and options with responseFormat json-array, if the
model-invocation capability returns a well-formed JSON array of N non-empty
strings (not wrapped in a code fence), then generatePlan (write_todos) returns
a Plan of exactly N TodoItems whose task fields equal the N strings in the
same order and whose status fields are all pending. -/
theorem claim1_json_array_success {e : Type} (invoke : List Char → Except e (List Char))
    (task resp : List Char) (ss : List (List Char))
    (hresp : invoke (ProjectPlanning.formatted_prompt task) = Except.ok resp)
    (hnoOpen : fence.isPrefixOf (pyStrip resp) = false)
    (hnoClose : fence.isSuffixOf (pyStrip resp) = false)
    (hjson : jsonLoads (pyStrip resp) = Except.ok (PyVal.list (ss.map PyVal.str)))
    (_hnonempty : ∀ s ∈ ss, s ≠ []) :
    ProjectPlanning.write_todos invoke task =
      Except.ok ⟨ss.map fun s => ⟨s, pendingStatus⟩⟩ := by
  have hclean : cleanResponse resp = pyStrip resp := cleanResponse_no_fence hnoOpen hnoClose
  have hpm : ProjectPlanning.parse_model_response resp =
      Except.ok ⟨ss.map fun s => ⟨s, pendingStatus⟩⟩ :=
    parse_model_response_of_strings (by rw [hclean, hjson])
  simp only [ProjectPlanning.write_todos, hresp, hpm]

/-- Witness for C1 at the end-to-end scenario of the spec. -/
theorem claim1_witness :
    ProjectPlanning.write_todos
        (fun _ => (Except.ok demoResponse : Except (List Char) (List Char))) demoTask =
      Except.ok ⟨demoStrings.map fun s => ⟨s, pendingStatus⟩⟩ :=
  claim1_json_array_success _ demoTask demoResponse demoStrings rfl rfl rfl rfl (by decide)

/-- Claim C2: for every goal in json-array mode, if the model response after
normalization is not valid JSON, generatePlan (write_todos) fails with a
MalformedModelOutput error (the raised ValueError) whose payload contains the
original raw response text and the underlying decode error, and it never
silently returns an empty Plan in this case. -/
theorem claim2_invalid_json {e : Type} (invoke : List Char → Except e (List Char))
    (task resp err : List Char)
    (hresp : invoke (ProjectPlanning.formatted_prompt task) = Except.ok resp)
    (hbad : jsonLoads (cleanResponse resp) = Except.error err) :
    ProjectPlanning.write_todos invoke task =
        Except.error (PyError.valueError (jsonDecodeFailMsg resp err))
      ∧ resp <:+: jsonDecodeFailMsg resp err
      ∧ err <:+: jsonDecodeFailMsg resp err := by
  refine ⟨?_, ?_, ?_⟩
  · have hpm : ProjectPlanning.parse_model_response resp =
        Except.error (jsonDecodeFailMsg resp err) := by
      unfold ProjectPlanning.parse_model_response
      rw [hbad]
    simp only [ProjectPlanning.write_todos, hresp, hpm]
  · exact ⟨"LLM did not return valid JSON. Raw response:\n".toList,
      "\n\nJSON error: ".toList ++ err, by simp [jsonDecodeFailMsg]⟩
  · exact ⟨"LLM did not return valid JSON. Raw response:\n".toList ++ resp ++
      "\n\nJSON error: ".toList, [], by simp [jsonDecodeFailMsg]⟩

/-- Witness for C2 at the end-to-end scenario of the spec. -/
theorem claim2_witness :
    ProjectPlanning.write_todos
        (fun _ => (Except.ok notJsonResponse : Except (List Char) (List Char))) demoTask =
        Except.error (PyError.valueError (jsonDecodeFailMsg notJsonResponse msgExpectingValue))
      ∧ notJsonResponse <:+: jsonDecodeFailMsg notJsonResponse msgExpectingValue
      ∧ msgExpectingValue <:+: jsonDecodeFailMsg notJsonResponse msgExpectingValue :=
  claim2_invalid_json _ demoTask notJsonResponse msgExpectingValue rfl rfl

/-- Claim C8: for every goal, if the model-invocation capability fails
(transport or provider error), generatePlan (write_todos) propagates that
error unchanged to the caller without catching, reinterpreting, retrying,
or recovering. -/
theorem claim8_provider_error_propagation {e : Type}
    (invoke : List Char → Except e (List Char)) (task : List Char) (err : e)
    (h : invoke (ProjectPlanning.formatted_prompt task) = Except.error err) :
    ProjectPlanning.write_todos invoke task = Except.error (PyError.providerError err) := by
  simp only [ProjectPlanning.write_todos, h]

/-- Witness for C8 at a concrete failing capability. -/
theorem claim8_witness :
    ProjectPlanning.write_todos
        (fun _ => (Except.error "rate limit exceeded".toList :
          Except (List Char) (List Char))) demoTask =
      Except.error (PyError.providerError "rate limit exceeded".toList) :=
  claim8_provider_error_propagation _ demoTask "rate limit exceeded".toList rfl

/-- Claim C10: generatePlan (write_todos) performs no validation of the goal;
for every string, including the empty string, it interpolates the goal into
the prompt and proceeds to the model call without raising any InvalidInput
error.  The capability below answers only when it is handed a prompt
containing the goal, so the successful result shows both that the model call
is reached and that the goal was interpolated. -/
theorem claim10_no_input_validation (task : List Char) :
    ProjectPlanning.write_todos
        (fun p => if task.isSuffixOf p then
            (Except.ok singletonArrayResponse : Except (List Char) (List Char))
          else Except.error "model not invoked with the goal".toList) task =
      Except.ok ⟨[⟨['A'], pendingStatus⟩]⟩ := by
  have hsuf : task.isSuffixOf (ProjectPlanning.formatted_prompt task) = true := by
    rw [List.isSuffixOf_iff_suffix]
    exact show task <:+ ProjectPlanning.planning_prompt_head ++ task from
      List.suffix_append _ _
  simp only [ProjectPlanning.write_todos, hsuf, if_true]
  rfl

/-- Counterexample to C3 as stated: when the model returns the valid JSON
array of numbers given by numericArrayResponse, write_todos does raise a
ValueError, but its message reports only the type of the decoded value and
does not carry the raw response text. -/
theorem claim3_counterexample :
    ProjectPlanning.write_todos
        (fun _ => (Except.ok numericArrayResponse : Except (List Char) (List Char)))
        demoTask =
        Except.error (PyError.valueError (notListOfStringsMsg numericArrayValue))
      ∧ ¬ numericArrayResponse <:+: notListOfStringsMsg numericArrayValue := by
  refine ⟨rfl, fun h => ?_⟩
  have hmem : '[' ∈ notListOfStringsMsg numericArrayValue :=
    h.sublist.subset (by decide)
  revert hmem
  decide

/-- Claim C3 (amended): for every goal in json-array mode, if the model
response decodes as valid JSON but the decoded value is not a list of
strings, write_todos fails with a ValueError whose message reports the type
of the decoded value; unlike the decode-failure message, it does not carry
the raw response text. -/
theorem claim3_amended_shape_error {e : Type} (invoke : List Char → Except e (List Char))
    (task resp : List Char) (v : PyVal)
    (hresp : invoke (ProjectPlanning.formatted_prompt task) = Except.ok resp)
    (hjson : jsonLoads (cleanResponse resp) = Except.ok v)
    (hshape : isListOfStrings v = false) :
    ProjectPlanning.write_todos invoke task =
      Except.error (PyError.valueError (notListOfStringsMsg v)) := by
  have hpm : ProjectPlanning.parse_model_response resp =
      Except.error (notListOfStringsMsg v) := by
    unfold ProjectPlanning.parse_model_response
    rw [hjson]
    simp [hshape]
  simp only [ProjectPlanning.write_todos, hresp, hpm]

/-- Witness for the amended C3 at the array-of-numbers input. -/
theorem claim3_amended_witness :
    ProjectPlanning.write_todos
        (fun _ => (Except.ok numericArrayResponse : Except (List Char) (List Char)))
        "Plan a study".toList =
      Except.error (PyError.valueError (notListOfStringsMsg numericArrayValue)) :=
  claim3_amended_shape_error _ "Plan a study".toList numericArrayResponse
    numericArrayValue rfl rfl rfl

/-- Claim C4: fence-stripping idempotence; wrapping a well-formed JSON array
of strings in a fenced code block (with or without a language tag on the
opening line) yields a parsed Plan identical to the one produced from the
unwrapped text. -/
theorem claim4_fence_idempotence (lang A : List Char) (ss : List (List Char))
    (hlang : nl ∉ lang)
    (hnoOpen : fence.isPrefixOf (pyStrip A) = false)
    (hnoClose : fence.isSuffixOf (pyStrip A) = false)
    (hjson : jsonLoads (pyStrip A) = Except.ok (PyVal.list (ss.map PyVal.str))) :
    ProjectPlanning.parse_model_response (fenceWrap lang A) =
        ProjectPlanning.parse_model_response A
      ∧ ProjectPlanning.parse_model_response A =
        Except.ok ⟨ss.map fun s => ⟨s, pendingStatus⟩⟩ := by
  have hw : cleanResponse (fenceWrap lang A) = pyStrip A :=
    cleanResponse_fenceWrap lang A hlang
  have hu : cleanResponse A = pyStrip A := cleanResponse_no_fence hnoOpen hnoClose
  have h1 : ProjectPlanning.parse_model_response (fenceWrap lang A) =
      Except.ok ⟨ss.map fun s => ⟨s, pendingStatus⟩⟩ :=
    parse_model_response_of_strings (by rw [hw, hjson])
  have h2 : ProjectPlanning.parse_model_response A =
      Except.ok ⟨ss.map fun s => ⟨s, pendingStatus⟩⟩ :=
    parse_model_response_of_strings (by rw [hu, hjson])
  exact ⟨h1.trans h2.symm, h2⟩

/-- Witness for C4 at the fenced trip scenario of the spec. -/
theorem claim4_witness :
    ProjectPlanning.parse_model_response (fenceWrap "json".toList tripResponse) =
        ProjectPlanning.parse_model_response tripResponse
      ∧ ProjectPlanning.parse_model_response tripResponse =
        Except.ok ⟨tripStrings.map fun s => ⟨s, pendingStatus⟩⟩ :=
  claim4_fence_idempotence "json".toList tripResponse tripStrings
    (by decide) rfl rfl rfl

/-- Counterexample to C5 as stated: write_todos copies the decoded JSON
strings into the task fields verbatim, so a model response holding one empty
string produces a Plan whose single TodoItem has an empty task, violating
the claimed non-emptiness invariant. -/
theorem claim5_counterexample :
    ProjectPlanning.write_todos
        (fun _ => (Except.ok emptyStringArrayResponse : Except (List Char) (List Char)))
        demoTask =
        Except.ok ⟨[⟨[], pendingStatus⟩]⟩
      ∧ ¬ ∀ item ∈ [TodoItem.mk [] pendingStatus], item.task ≠ [] :=
  ⟨rfl, by decide⟩

/-- Claim C5 (amended): every TodoItem in a Plan returned by write_todos has
status pending (hence a status within the pending/done enumeration); the
task strings are the decoded model strings taken verbatim, with no
non-emptiness, trimming, or marker-stripping enforced. -/
theorem claim5_amended_status_invariant {e : Type} (invoke : List Char → Except e (List Char))
    (task : List Char) (plan : PlanDict)
    (h : ProjectPlanning.write_todos invoke task = Except.ok plan) :
    ∀ item ∈ plan.todos, item.status = pendingStatus := by
  unfold ProjectPlanning.write_todos at h
  split at h
  · exact absurd h (by simp)
  · split at h
    · exact absurd h (by simp)
    · injection h with h
      subst h
      next heq => exact parse_model_response_status heq

/-- Witness for the amended C5 at a concrete successful call and item. -/
theorem claim5_amended_witness :
    TodoItem.status ⟨['A'], pendingStatus⟩ = pendingStatus :=
  claim5_amended_status_invariant
    (fun _ => (Except.ok singletonArrayResponse : Except (List Char) (List Char)))
    demoTask ⟨[⟨['A'], pendingStatus⟩]⟩ rfl ⟨['A'], pendingStatus⟩ (by decide)

/-- Counterexample to C6 as stated: the looser-variant write_todos returns
the model text unchanged — for the numbered response it yields the raw text
(still carrying its leading ordinal marker) instead of the list of
marker-stripped pending TodoItems that the claim describes (shown here by
evaluating the spec-described parse on the same text). -/
theorem claim6_counterexample :
    EnginePlanning.write_todos
        (fun _ => (Except.ok numberedTextResponse : Except (List Char) (List Char)))
        "Plan a research project".toList = Except.ok numberedTextResponse
      ∧ specNumberedTodos numberedTextResponse =
          [⟨"Research X".toList, pendingStatus⟩, ⟨"Draft Y".toList, pendingStatus⟩,
            ⟨"Review Z".toList, pendingStatus⟩]
      ∧ "1. ".toList <+: numberedTextResponse :=
  ⟨rfl, by decide, by decide⟩

/-- Claim C6 (amended): the looser-variant write_todos returns the model
response content verbatim — it performs no line splitting, no marker
stripping, and builds no TodoItems; it never fails apart from the model call
itself, and an empty or whitespace-only response is returned as that same
text rather than raising an error. -/
theorem claim6_amended_verbatim {e : Type} (invoke : List Char → Except e (List Char))
    (goal resp : List Char)
    (h : invoke (EnginePlanning.prompt_text goal) = Except.ok resp) :
    EnginePlanning.write_todos invoke goal = Except.ok resp := h

/-- Witness for the amended C6 at the empty response. -/
theorem claim6_amended_witness :
    EnginePlanning.write_todos
        (fun _ => (Except.ok [] : Except (List Char) (List Char)))
        "Plan a trip".toList = Except.ok [] :=
  claim6_amended_verbatim _ "Plan a trip".toList [] rfl

/-- Claim C7: the prompt built by write_todos states the decomposition task
with a target range of 4 to 6 steps, mandates output that is only a JSON
array of strings with no markdown fencing or commentary, contains exactly
one example array (the only bracketed text of the fixed template), and
contains the goal text. -/
theorem claim7_prompt_construction (task : List Char) :
    "Break the following complex task into 4 to 6".toList <:+:
        ProjectPlanning.formatted_prompt task
      ∧ "- Return ONLY valid JSON.".toList <:+:
        ProjectPlanning.formatted_prompt task
      ∧ "The output MUST be a JSON array of strings.".toList <:+:
        ProjectPlanning.formatted_prompt task
      ∧ "Do NOT include markdown, code fences, or explanations.".toList <:+:
        ProjectPlanning.formatted_prompt task
      ∧ "[\"Research the topic\", \"Identify key components\", \"Draft an outline\", \"Review and refine\"]".toList <:+:
        ProjectPlanning.formatted_prompt task
      ∧ ProjectPlanning.planning_prompt_head.count '[' = 1
      ∧ ProjectPlanning.planning_prompt_head.count ']' = 1
      ∧ task <:+ ProjectPlanning.formatted_prompt task := by
  have hmono : ∀ x : List Char, x <:+: ProjectPlanning.planning_prompt_head →
      x <:+: ProjectPlanning.formatted_prompt task := by
    rintro x ⟨s, t, hst⟩
    exact ⟨s, t ++ task, by rw [ProjectPlanning.formatted_prompt, ← hst]; simp⟩
  refine ⟨hmono _ (by decide), hmono _ (by decide), hmono _ (by decide),
    hmono _ (by decide), hmono _ (by decide), by decide, by decide, ?_⟩
  exact show task <:+ ProjectPlanning.planning_prompt_head ++ task from
    List.suffix_append _ _

/-- Claim C9: the opening and closing fence markers are stripped
independently — a trailing fence marker is removed even when no opening
fence is present, and an opening fence line is removed even when no closing
fence is present. -/
theorem claim9_fence_asymmetry (r : List Char) :
    (fence.isPrefixOf (pyStrip r) = false → fence.isSuffixOf (pyStrip r) = true →
      cleanResponse r = pyStrip ((pyStrip r).take ((pyStrip r).length - 3)))
    ∧ (fence.isPrefixOf (pyStrip r) = true →
        fence.isSuffixOf (stripOpeningFence (pyStrip r)) = false →
        cleanResponse r = pyStrip (stripOpeningFence (pyStrip r))) := by
  constructor
  · intro h1 h2
    simp only [cleanResponse, stripOpeningFence, stripClosingFence, h1, h2,
      Bool.false_eq_true, if_false, if_true]
  · intro h1 h2
    simp only [cleanResponse, stripClosingFence, h2, Bool.false_eq_true, if_false]

/-- Witness for C9: a response that ends with a fence marker but does not
start with one still has its trailing marker removed. -/
theorem claim9_witness :
    cleanResponse ("hello".toList ++ fence) =
      pyStrip ((pyStrip ("hello".toList ++ fence)).take
        ((pyStrip ("hello".toList ++ fence)).length - 3)) :=
  (claim9_fence_asymmetry ("hello".toList ++ fence)).1 rfl rfl

end PlanSpec
